import Mathlib

/-!
# Verification of the scrap-sys order/pricing server core (src/server.js)

Shallow embedding of the pure core of `src/server.js`: JSON-ish values,
the persisted document, validation, price calculation, config merge,
order creation/deletion, DB-file initialization and the stats projection.
JS numbers are modelled as exact rationals (`ℚ`), timestamps as integers.
-/

namespace ScrapSys

/-- A JSON-ish JavaScript value, as far as the claims need it. -/
inductive JsVal where
  | num (q : ℚ)
  | str (s : String)
  | boolean (b : Bool)
  | null
deriving DecidableEq, Repr

/-- JavaScript truthiness of a `JsVal`. -/
def jsTruthy : JsVal → Bool
  | .num q => q != 0
  | .str s => s != ""
  | .boolean b => b
  | .null => false

/-- Truthiness of a possibly-absent (`undefined`) value. -/
def jsTruthyOpt : Option JsVal → Bool
  | none => false
  | some v => jsTruthy v

/-- Numeric content of a `JsVal`; the handlers only apply this to values
that already passed `validateConfigData`, which forces the `num` case. -/
def jsNum : JsVal → ℚ
  | .num q => q
  | _ => 0

/-- A stored order (src/server.js lines 190-199). The creation date and
timestamp are modelled as integers (`Date` values via their time value). -/
structure Order where
  id : String
  customer : String
  size : String
  packaging : String
  embroidery : Bool
  price : ℚ
  date : ℤ
  createdAt : Option ℤ
deriving DecidableEq, Repr

/-- The stored pricing config.  Fields are optional because the persisted
file may omit them; `packaging` is a JS object, i.e. a finite map from
string keys to surcharges. -/
structure StoredConfig where
  basePrice : Option ℚ
  packaging : String → Option ℚ
  embroidery : Option ℚ

/-- The persisted root document. -/
structure Document where
  orders : List Order
  config : StoredConfig
  settings : List (String × JsVal)

/-- The default packaging object `defaultData.config.packaging` (src/server.js lines 38-42). -/
def defaultPack : String → Option ℚ := fun k =>
  if k = "basic" then some 3
  else if k = "branded" then some 5
  else if k = "box" then some 7
  else none

/-- The default config `defaultData.config` (src/server.js lines 36-44). -/
def defaultConfig : StoredConfig :=
  { basePrice := some 45, packaging := defaultPack, embroidery := some 20 }

/-- Model of `x || 0` for a value that is either a number or absent (`undefined`):
absent gives 0, and a number gives itself (`0 || 0` is `0`). -/
def orZero (o : Option ℚ) : ℚ := o.getD 0

/-- Model of `q || 0` for a number `q` that is always present. -/
def jsOrZeroQ (q : ℚ) : ℚ := if q = 0 then 0 else q

/-- JavaScript `Math.round`: round half towards positive infinity. -/
def jsRound (q : ℚ) : ℤ := ⌊q + 1 / 2⌋

/-- The function `calculatePrice` (src/server.js lines 144-151): base price plus
packaging surcharge plus optional embroidery surcharge, then
`Math.round(price * 100) / 100`.  The `size` argument is unused, exactly
as in the source. -/
def calculatePrice (config : StoredConfig) (size : String) (packagingType : String)
    (embroidery : Option JsVal) : ℚ :=
  let price := orZero config.basePrice
  let price := price + orZero (config.packaging packagingType)
  let price := if jsTruthyOpt embroidery then price + orZero config.embroidery else price
  (jsRound (price * 100) : ℚ) / 100

/-- Round half away from zero, as the spec's rounding rule describes it.
(Definition follows the spec's words, for comparison with `jsRound`.) -/
def razRound (q : ℚ) : ℤ := if 0 ≤ q then ⌊q + 1 / 2⌋ else -⌊-q + 1 / 2⌋

/-- The spec's rounding of a price to 2 decimals, half away from zero at
the cent boundary. -/
def razRoundCents (q : ℚ) : ℚ := (razRound (q * 100) : ℚ) / 100

lemma razRound_of_nonneg {q : ℚ} (h : 0 ≤ q) : razRound q = ⌊q + 1 / 2⌋ := by
  simp [razRound, h]

/-- Claim C1: For every config whose components are present and non-negative
(as the spec's `PricingConfig` data model requires) and every valid
(size, packaging, embroidery) input, `calculatePrice` returns
basePrice + packaging surcharge + (embroidery ? embroidery surcharge : 0),
rounded to 2 decimals half away from zero at the cent boundary; and the
size argument has no effect on the result. -/
theorem calculatePrice_correct (cfg : StoredConfig) (size size' pk : String)
    (emb : Option JsVal) (b p e : ℚ)
    (hb : cfg.basePrice = some b) (hp : cfg.packaging pk = some p)
    (he : cfg.embroidery = some e) (hb0 : 0 ≤ b) (hp0 : 0 ≤ p) (he0 : 0 ≤ e) :
    calculatePrice cfg size pk emb
        = razRoundCents (b + p + (if jsTruthyOpt emb then e else 0)) ∧
      calculatePrice cfg size pk emb = calculatePrice cfg size' pk emb := by
  have hsum : (0 : ℚ) ≤ (b + p + (if jsTruthyOpt emb then e else 0)) * 100 := by
    have : (0 : ℚ) ≤ b + p + (if jsTruthyOpt emb then e else 0) := by
      have : (0 : ℚ) ≤ (if jsTruthyOpt emb then e else 0) := by
        split <;> simp [he0]
      linarith
    positivity
  constructor
  · simp only [calculatePrice, razRoundCents, razRound_of_nonneg hsum, jsRound,
      hb, hp, he, orZero, Option.getD_some]
    congr 2
    split <;> ring
  · rfl

/-- Witness for C1 at the default config with embroidery on:
45 + 7 + 20 = 72, and price for "L" equals price for "M". -/
theorem calculatePrice_correct_witness :
    calculatePrice defaultConfig "L" "box" (some (JsVal.boolean true))
        = razRoundCents (45 + 7 + (if jsTruthyOpt (some (JsVal.boolean true)) then 20 else 0)) ∧
      calculatePrice defaultConfig "L" "box" (some (JsVal.boolean true))
        = calculatePrice defaultConfig "M" "box" (some (JsVal.boolean true)) :=
  calculatePrice_correct defaultConfig "L" "M" "box" (some (JsVal.boolean true))
    45 7 20 rfl (by decide) rfl (by norm_num) (by norm_num) (by norm_num)

/-- The request body of `POST /api/orders` as far as the handler reads it:
each field is either absent (`undefined`) or some JS value. -/
structure OrderInput where
  customer : Option JsVal
  size : Option JsVal
  packaging : Option JsVal
  embroidery : Option JsVal
deriving DecidableEq, Repr

/-- JavaScript `String.prototype.trim`: drop leading and trailing
whitespace. -/
def jsTrim (s : String) : String :=
  ⟨((s.data.dropWhile Char.isWhitespace).reverse.dropWhile Char.isWhitespace).reverse⟩

/-- The customer check of `validateOrderData` (src/server.js line 105):
`!customer || typeof customer !== 'string' || customer.trim().length === 0`. -/
def customerBadB (v : Option JsVal) : Bool :=
  !jsTruthyOpt v ||
    (match v with
     | some (.str s) => (jsTrim s).length == 0
     | _ => true)

/-- The size check of `validateOrderData` (src/server.js line 109):
`size && ['M','L','XL','2XL'].includes(size)` (`includes` uses `===`, so
only string values can match). -/
def sizeOkB (v : Option JsVal) : Bool :=
  jsTruthyOpt v &&
    (match v with
     | some (.str s) => (["M", "L", "XL", "2XL"] : List String).contains s
     | _ => false)

/-- The packaging check of `validateOrderData` (src/server.js line 113). -/
def packOkB (v : Option JsVal) : Bool :=
  jsTruthyOpt v &&
    (match v with
     | some (.str s) => (["basic", "branded", "box"] : List String).contains s
     | _ => false)

/-- The function `validateOrderData` (src/server.js lines 102-118): returns the first
error message, or `none` when the data is valid. -/
def validateOrderData (d : OrderInput) : Option String :=
  if customerBadB d.customer then some "Customer name is required"
  else if !sizeOkB d.size then some "Valid size is required (M, L, XL, 2XL)"
  else if !packOkB d.packaging then
    some "Valid packaging type is required (basic, branded, box)"
  else none

/-- The `POST /api/orders` handler (src/server.js lines 177-209), with the
generated id, calendar date and timestamp passed in as parameters.  On a
validation error the document is returned unchanged (nothing is written).
When validation passed, `customer`, `size` and `packaging` are necessarily
strings, so the final match arm is unreachable. -/
def runCreate (doc : Document) (inp : OrderInput) (newId : String)
    (dateVal nowVal : ℤ) : Document × Except String Order :=
  match validateOrderData inp with
  | some e => (doc, .error e)
  | none =>
    match inp.customer, inp.size, inp.packaging with
    | some (.str c), some (.str sz), some (.str pk) =>
      let price := calculatePrice doc.config sz pk inp.embroidery
      let newOrder : Order :=
        { id := newId, customer := jsTrim c, size := sz, packaging := pk,
          embroidery := jsTruthyOpt inp.embroidery, price := price,
          date := dateVal, createdAt := some nowVal }
      ({ doc with orders := doc.orders ++ [newOrder] }, .ok newOrder)
    | _, _, _ => (doc, .error "unreachable")

/-- JavaScript `findIndex` on `order.id === id` followed by `splice(index, 1)`
(src/server.js lines 381-387): remove the first order with the given id,
returning it together with the remaining list. -/
def removeFirst (id : String) : List Order → Option (Order × List Order)
  | [] => none
  | o :: rest =>
    if o.id = id then some (o, rest)
    else (removeFirst id rest).map (fun p => (p.1, o :: p.2))

/-- The `DELETE /api/orders/:id` handler (src/server.js lines 372-398). -/
def runDelete (doc : Document) (id : String) : Document × Except String Order :=
  if id = "" then (doc, .error "Order ID is required")
  else
    match removeFirst id doc.orders with
    | none => (doc, .error "Order not found")
    | some (r, rest) => ({ doc with orders := rest }, .ok r)

/-! Spec-side predicates used to state the claims' validation conditions. -/

/-- The claim's "customer name is missing or blank after trimming". -/
def customerMissingOrBlank (v : Option JsVal) : Prop :=
  v = none ∨ ∃ s, v = some (JsVal.str s) ∧ jsTrim s = ""

/-- The claim's "size is one of {M, L, XL, 2XL}". -/
def sizeIsValid (v : Option JsVal) : Prop :=
  ∃ s, v = some (JsVal.str s) ∧ s ∈ (["M", "L", "XL", "2XL"] : List String)

/-- The claim's "packaging is one of {basic, branded, box}". -/
def packagingIsValid (v : Option JsVal) : Prop :=
  ∃ s, v = some (JsVal.str s) ∧ s ∈ (["basic", "branded", "box"] : List String)

lemma string_length_eq_zero_iff (t : String) : t.length = 0 ↔ t = "" := by
  cases t with
  | mk l =>
    cases l <;> simp [String.length, String.ext_iff]

lemma jsTrim_empty : jsTrim "" = "" := by
  decide

lemma customerBadB_false_iff (v : Option JsVal) :
    customerBadB v = false ↔ ∃ s, v = some (JsVal.str s) ∧ jsTrim s ≠ "" := by
  rcases v with _ | v
  · simp [customerBadB, jsTruthyOpt]
  · rcases v with q | s | b | _
    · simp [customerBadB]
    · constructor
      · intro h
        refine ⟨s, rfl, ?_⟩
        simp [customerBadB, jsTruthyOpt, jsTruthy, string_length_eq_zero_iff] at h
        exact h.2
      · rintro ⟨s', hs', htr⟩
        cases hs'
        have hne : s ≠ "" := by
          rintro rfl
          exact htr jsTrim_empty
        simp [customerBadB, jsTruthyOpt, jsTruthy, hne, string_length_eq_zero_iff, htr]
    · simp [customerBadB]
    · simp [customerBadB, jsTruthyOpt, jsTruthy]

lemma sizeOkB_true_iff (v : Option JsVal) : sizeOkB v = true ↔ sizeIsValid v := by
  rcases v with _ | v
  · simp [sizeOkB, sizeIsValid, jsTruthyOpt]
  · rcases v with q | s | b | _
    · simp [sizeOkB, sizeIsValid]
    · constructor
      · intro h
        simp [sizeOkB, jsTruthyOpt, jsTruthy] at h
        exact ⟨s, rfl, by simpa using h.2⟩
      · rintro ⟨s', hs', hmem⟩
        cases hs'
        have hne : s ≠ "" := by
          rintro rfl
          exact absurd hmem (by decide)
        simp [sizeOkB, jsTruthyOpt, jsTruthy, hne]
        simpa using hmem
    · simp [sizeOkB, sizeIsValid]
    · simp [sizeOkB, sizeIsValid, jsTruthyOpt, jsTruthy]

lemma packOkB_true_iff (v : Option JsVal) : packOkB v = true ↔ packagingIsValid v := by
  rcases v with _ | v
  · simp [packOkB, packagingIsValid, jsTruthyOpt]
  · rcases v with q | s | b | _
    · simp [packOkB, packagingIsValid]
    · constructor
      · intro h
        simp [packOkB, jsTruthyOpt, jsTruthy] at h
        exact ⟨s, rfl, by simpa using h.2⟩
      · rintro ⟨s', hs', hmem⟩
        cases hs'
        have hne : s ≠ "" := by
          rintro rfl
          exact absurd hmem (by decide)
        simp [packOkB, jsTruthyOpt, jsTruthy, hne]
        simpa using hmem
    · simp [packOkB, packagingIsValid]
    · simp [packOkB, packagingIsValid, jsTruthyOpt, jsTruthy]

lemma validateOrderData_eq_none_iff (d : OrderInput) :
    validateOrderData d = none ↔
      (∃ s, d.customer = some (JsVal.str s) ∧ jsTrim s ≠ "") ∧
        sizeIsValid d.size ∧ packagingIsValid d.packaging := by
  rw [← customerBadB_false_iff, ← sizeOkB_true_iff, ← packOkB_true_iff]
  unfold validateOrderData
  rcases hc : customerBadB d.customer <;> rcases hs : sizeOkB d.size <;>
    rcases hp : packOkB d.packaging <;> simp [hc, hs, hp]

/-- A concrete document used to instantiate theorems: default config, no
orders. -/
def sampleDoc : Document := { orders := [], config := defaultConfig, settings := [] }

/-- Claim C2: For every create-order input whose customer name is missing or
blank after trimming, or whose size is not one of {M, L, XL, 2XL}, or
whose packaging is not one of {basic, branded, box}, creation fails with a
validation error and the persisted order list is unchanged (the document
is returned as-is; nothing is saved). -/
theorem create_invalid_rejected (doc : Document) (inp : OrderInput) (newId : String)
    (dateVal nowVal : ℤ)
    (h : customerMissingOrBlank inp.customer ∨ ¬ sizeIsValid inp.size ∨
      ¬ packagingIsValid inp.packaging) :
    (runCreate doc inp newId dateVal nowVal).1 = doc ∧
      ∃ e, (runCreate doc inp newId dateVal nowVal).2 = Except.error e := by
  have hv : validateOrderData inp ≠ none := by
    intro hn
    obtain ⟨⟨s, hs, htr⟩, hsz, hpk⟩ := (validateOrderData_eq_none_iff inp).mp hn
    rcases h with h | h | h
    · rcases h with h | ⟨s', hs', htr'⟩
      · rw [h] at hs; cases hs
      · have : s' = s := by
          have := hs'.symm.trans hs
          simpa using this
        subst this
        exact htr htr'
    · exact h hsz
    · exact h hpk
  rcases he : validateOrderData inp with _ | e
  · exact absurd he hv
  · exact ⟨by simp [runCreate, he], e, by simp [runCreate, he]⟩

/-- Witness for C2: blank customer, size "XXL", packaging "gift". -/
theorem create_invalid_rejected_witness :
    (runCreate sampleDoc
        ⟨some (JsVal.str ""), some (JsVal.str "XXL"), some (JsVal.str "gift"), none⟩
        "id1" 0 0).1 = sampleDoc ∧
      ∃ e, (runCreate sampleDoc
        ⟨some (JsVal.str ""), some (JsVal.str "XXL"), some (JsVal.str "gift"), none⟩
        "id1" 0 0).2 = Except.error e :=
  create_invalid_rejected sampleDoc _ "id1" 0 0
    (Or.inl (Or.inr ⟨"", rfl, jsTrim_empty⟩))

/-- Claim C10: Every successfully created order stores exactly the boolean
coercion (`!!embroidery`) of the input's embroidery value; in particular
it is `false` when the optional field is omitted. -/
theorem create_embroidery_boolean (doc : Document) (inp : OrderInput) (newId : String)
    (dateVal nowVal : ℤ) (ord : Order)
    (h : (runCreate doc inp newId dateVal nowVal).2 = Except.ok ord) :
    ord.embroidery = jsTruthyOpt inp.embroidery ∧
      (inp.embroidery = none → ord.embroidery = false) := by
  rcases he : validateOrderData inp with _ | e
  · obtain ⟨⟨c, hc, _⟩, ⟨sz, hsz, _⟩, ⟨pk, hpk, _⟩⟩ :=
      (validateOrderData_eq_none_iff inp).mp he
    simp only [runCreate, he, hc, hsz, hpk] at h
    have hord : ord.embroidery = jsTruthyOpt inp.embroidery := by
      cases h
      rfl
    exact ⟨hord, fun hn => by simp [hord, hn, jsTruthyOpt]⟩
  · simp [runCreate, he] at h

/-- Witness for C10: a valid input with embroidery omitted yields a stored
`embroidery = false`. -/
theorem create_embroidery_boolean_witness :
    ({ id := "id1", customer := "Ann", size := "M", packaging := "basic",
       embroidery := false, price := 48, date := 10, createdAt := some 20 } : Order).embroidery
      = jsTruthyOpt (⟨some (JsVal.str "Ann"), some (JsVal.str "M"),
          some (JsVal.str "basic"), none⟩ : OrderInput).embroidery :=
  (create_embroidery_boolean sampleDoc
    ⟨some (JsVal.str "Ann"), some (JsVal.str "M"), some (JsVal.str "basic"), none⟩
    "id1" 10 20 _ rfl).1

lemma removeFirst_eq_none_iff (id : String) (l : List Order) :
    removeFirst id l = none ↔ ∀ o ∈ l, o.id ≠ id := by
  induction l with
  | nil => simp [removeFirst]
  | cons o rest ih =>
    by_cases h : o.id = id
    · simp [removeFirst, h]
    · simp [removeFirst, h, Option.map_eq_none', ih]

lemma removeFirst_eq_some (id : String) (l : List Order) (r : Order) (rest : List Order)
    (h : removeFirst id l = some (r, rest)) :
    ∃ l₁ l₂, l = l₁ ++ r :: l₂ ∧ rest = l₁ ++ l₂ ∧ r.id = id ∧ ∀ o ∈ l₁, o.id ≠ id := by
  induction l generalizing rest with
  | nil => simp [removeFirst] at h
  | cons o tl ih =>
    by_cases ho : o.id = id
    · rw [removeFirst, if_pos ho] at h
      injection h with h1
      injection h1 with h2 h3
      subst h2
      subst h3
      exact ⟨[], tl, by simp, by simp, ho, by simp⟩
    · rw [removeFirst, if_neg ho] at h
      rcases hm : removeFirst id tl with _ | ⟨r', rest'⟩
      · rw [hm] at h; cases h
      · rw [hm] at h
        injection h with h1
        injection h1 with h2 h3
        subst h2
        subst h3
        obtain ⟨l₁, l₂, hl, hrest, hr, hl₁⟩ := ih rest' hm
        refine ⟨o :: l₁, l₂, by simp [hl], by simp [hrest], hr, ?_⟩
        intro o' ho'
        rcases List.mem_cons.mp ho' with rfl | h2
        · exact ho
        · exact hl₁ o' h2

/-- Claim C3: Deleting by an id held by no order fails with "Order not
found" and leaves the document (hence the order list) unchanged; deleting
by an id held by some order removes exactly the first matching order,
keeps everything else in order, shortens the list by one, and returns the
removed order.  (Express route parameters are never empty, hence the
`id ≠ ""` hypothesis; an empty id takes the separate 400 branch.) -/
theorem delete_spec (doc : Document) (id : String) (hid : id ≠ "") :
    ((∀ o ∈ doc.orders, o.id ≠ id) →
        runDelete doc id = (doc, Except.error "Order not found")) ∧
      (∀ o₀ ∈ doc.orders, o₀.id = id →
        ∃ l₁ l₂ r, doc.orders = l₁ ++ r :: l₂ ∧ r.id = id ∧ (∀ o ∈ l₁, o.id ≠ id) ∧
          (runDelete doc id).1.orders = l₁ ++ l₂ ∧
          (runDelete doc id).1.orders.length + 1 = doc.orders.length ∧
          (runDelete doc id).2 = Except.ok r) := by
  constructor
  · intro hnone
    have hm : removeFirst id doc.orders = none := (removeFirst_eq_none_iff id _).mpr hnone
    simp [runDelete, hid, hm]
  · intro o₀ hmem hido
    rcases hm : removeFirst id doc.orders with _ | ⟨r, rest⟩
    · exact absurd hido ((removeFirst_eq_none_iff id _).mp hm o₀ hmem)
    · obtain ⟨l₁, l₂, hl, hrest, hr, hl₁⟩ := removeFirst_eq_some id _ _ _ hm
      have h1 : (runDelete doc id).1.orders = l₁ ++ l₂ := by
        simp [runDelete, hid, hm, hrest]
      refine ⟨l₁, l₂, r, hl, hr, hl₁, h1, ?_, by simp [runDelete, hid, hm]⟩
      rw [h1, hl]
      simp
      omega

/-- Witness for C3: deleting a nonexistent id from the sample document. -/
theorem delete_spec_witness :
    runDelete sampleDoc "no-such-id" = (sampleDoc, Except.error "Order not found") :=
  (delete_spec sampleDoc "no-such-id" (by decide)).1 (by simp [sampleDoc])

/-- The request body of `POST /api/config/update`: optional basePrice and
embroidery values, and an optional packaging object given as its entry
list (`Object.entries` order). -/
structure ConfigInput where
  basePrice : Option JsVal
  packaging : Option (List (String × JsVal))
  embroidery : Option JsVal
deriving DecidableEq, Repr

/-- Check `basePrice !== undefined && (typeof basePrice !== 'number' || basePrice < 0)`
(src/server.js lines 123, 136). -/
def badNumOptB : Option JsVal → Bool
  | none => false
  | some (.num q) => decide (q < 0)
  | some _ => true

/-- One bad packaging entry (src/server.js line 130):
`!validPackageTypes.includes(type) || typeof price !== 'number' || price < 0`. -/
def badEntryB (e : String × JsVal) : Bool :=
  !(["basic", "branded", "box"] : List String).contains e.1 ||
    (match e.2 with
     | .num q => decide (q < 0)
     | _ => true)

/-- The function `validateConfigData` (src/server.js lines 120-141). -/
def validateConfigData (d : ConfigInput) : Option String :=
  if badNumOptB d.basePrice then some "Base price must be a positive number"
  else if (match d.packaging with
           | some l => l.any badEntryB
           | none => false) then some "Invalid packaging configuration"
  else if badNumOptB d.embroidery then some "Embroidery price must be a positive number"
  else none

/-- Assign one key of a JS object (one key-value pair of a spread). -/
def setKey (m : String → Option ℚ) (k : String) (q : ℚ) : String → Option ℚ :=
  fun k' => if k' = k then some q else m k'

/-- Spread `{ ...oldPackaging, ...packaging }` (src/server.js line 244): later
entries shadow earlier ones and both shadow the old mapping.  The entry
values are numbers here because `validateConfigData` passed. -/
def mergeEntries (m : String → Option ℚ) (l : List (String × JsVal)) : String → Option ℚ :=
  l.foldl (fun acc e => setKey acc e.1 (jsNum e.2)) m

/-- The `POST /api/config/update` handler (src/server.js lines 228-257).
Returns the resulting document and the error message, if any. -/
def runConfigUpdate (doc : Document) (inp : ConfigInput) : Document × Option String :=
  match validateConfigData inp with
  | some e => (doc, some e)
  | none =>
    let cfg := doc.config
    let cfg := match inp.basePrice with
      | some v => { cfg with basePrice := some (jsNum v) }
      | none => cfg
    let cfg := match inp.packaging with
      | some l => { cfg with packaging := mergeEntries cfg.packaging l }
      | none => cfg
    let cfg := match inp.embroidery with
      | some v => { cfg with embroidery := some (jsNum v) }
      | none => cfg
    ({ doc with config := cfg }, none)

/-- The last value bound to key `k` in an entry list (later entries win,
as in a JS object spread). -/
def lookupLast (l : List (String × JsVal)) (k : String) : Option JsVal :=
  match l with
  | [] => none
  | e :: tl =>
    match lookupLast tl k with
    | some v => some v
    | none => if e.1 = k then some e.2 else none

lemma mergeEntries_apply (m : String → Option ℚ) (l : List (String × JsVal)) (k : String) :
    mergeEntries m l k =
      match lookupLast l k with
      | some v => some (jsNum v)
      | none => m k := by
  induction l generalizing m with
  | nil => rfl
  | cons e tl ih =>
    show mergeEntries (setKey m e.1 (jsNum e.2)) tl k = _
    rw [ih]
    rcases ht : lookupLast tl k with _ | v
    · by_cases hk : e.1 = k
      · simp [lookupLast, ht, hk, setKey]
      · have hk' : ¬(k = e.1) := fun h => hk h.symm
        simp [lookupLast, ht, hk, setKey, hk']
    · simp [lookupLast, ht]

lemma runConfigUpdate_basePrice (doc : Document) (inp : ConfigInput)
    (h : validateConfigData inp = none) :
    (runConfigUpdate doc inp).1.config.basePrice =
      match inp.basePrice with
      | some v => some (jsNum v)
      | none => doc.config.basePrice := by
  rcases hb : inp.basePrice with _ | vb <;> rcases hp : inp.packaging with _ | lp <;>
    rcases he : inp.embroidery with _ | ve <;> simp [runConfigUpdate, h, hb, hp, he]

lemma runConfigUpdate_embroidery (doc : Document) (inp : ConfigInput)
    (h : validateConfigData inp = none) :
    (runConfigUpdate doc inp).1.config.embroidery =
      match inp.embroidery with
      | some v => some (jsNum v)
      | none => doc.config.embroidery := by
  rcases hb : inp.basePrice with _ | vb <;> rcases hp : inp.packaging with _ | lp <;>
    rcases he : inp.embroidery with _ | ve <;> simp [runConfigUpdate, h, hb, hp, he]

lemma runConfigUpdate_packaging (doc : Document) (inp : ConfigInput)
    (h : validateConfigData inp = none) (k : String) :
    (runConfigUpdate doc inp).1.config.packaging k =
      match inp.packaging with
      | some l => mergeEntries doc.config.packaging l k
      | none => doc.config.packaging k := by
  rcases hb : inp.basePrice with _ | vb <;> rcases hp : inp.packaging with _ | lp <;>
    rcases he : inp.embroidery with _ | ve <;> simp [runConfigUpdate, h, hb, hp, he]

/-- Claim C4: For every prior config and every valid update, basePrice and
embroidery are replaced wholesale when present and retained otherwise,
and packaging is merged key-by-key: keys not mentioned in the update keep
their prior surcharge, mentioned keys get the (last) supplied value. -/
theorem configUpdate_merge (doc : Document) (inp : ConfigInput)
    (h : validateConfigData inp = none) :
    (∀ q : ℚ, inp.basePrice = some (JsVal.num q) →
        (runConfigUpdate doc inp).1.config.basePrice = some q) ∧
      (inp.basePrice = none →
        (runConfigUpdate doc inp).1.config.basePrice = doc.config.basePrice) ∧
      (∀ q : ℚ, inp.embroidery = some (JsVal.num q) →
        (runConfigUpdate doc inp).1.config.embroidery = some q) ∧
      (inp.embroidery = none →
        (runConfigUpdate doc inp).1.config.embroidery = doc.config.embroidery) ∧
      (inp.packaging = none →
        ∀ k, (runConfigUpdate doc inp).1.config.packaging k = doc.config.packaging k) ∧
      (∀ l, inp.packaging = some l → ∀ k, lookupLast l k = none →
        (runConfigUpdate doc inp).1.config.packaging k = doc.config.packaging k) ∧
      (∀ l q, inp.packaging = some l → ∀ k, lookupLast l k = some (JsVal.num q) →
        (runConfigUpdate doc inp).1.config.packaging k = some q) := by
  refine ⟨?_, ?_, ?_, ?_, ?_, ?_, ?_⟩
  · intro q hq
    rw [runConfigUpdate_basePrice doc inp h, hq]
    simp [jsNum]
  · intro hq
    rw [runConfigUpdate_basePrice doc inp h, hq]
  · intro q hq
    rw [runConfigUpdate_embroidery doc inp h, hq]
    simp [jsNum]
  · intro hq
    rw [runConfigUpdate_embroidery doc inp h, hq]
  · intro hq k
    rw [runConfigUpdate_packaging doc inp h k, hq]
  · intro l hl k hk
    rw [runConfigUpdate_packaging doc inp h k, hl]
    simp [mergeEntries_apply, hk]
  · intro l q hl k hk
    rw [runConfigUpdate_packaging doc inp h k, hl]
    simp [mergeEntries_apply, hk, jsNum]

/-- Witness for C4: updating the default config with packaging={basic:10}
sets basic to 10. -/
theorem configUpdate_merge_witness :
    (runConfigUpdate sampleDoc ⟨none, some [("basic", JsVal.num 10)], none⟩).1.config.packaging
        "basic" = some 10 :=
  (configUpdate_merge sampleDoc ⟨none, some [("basic", JsVal.num 10)], none⟩
      (by decide)).2.2.2.2.2.2 [("basic", JsVal.num 10)] 10 rfl "basic" (by decide)

/-- The claim's "not numeric or negative". -/
def notNumOrNeg : JsVal → Prop
  | .num q => q < 0
  | _ => True

/-- A present basePrice/embroidery value that is not numeric or is
negative. -/
def badMoneyOpt (v : Option JsVal) : Prop := ∃ w, v = some w ∧ notNumOrNeg w

/-- The claim's bad packaging entry: key outside {basic, branded, box} or
a negative or non-numeric value. -/
def badPackEntry (e : String × JsVal) : Prop :=
  e.1 ∉ (["basic", "branded", "box"] : List String) ∨ notNumOrNeg e.2

lemma badNumOptB_true_iff (v : Option JsVal) : badNumOptB v = true ↔ badMoneyOpt v := by
  rcases v with _ | w
  · simp [badNumOptB, badMoneyOpt]
  · rcases w with q | s | b | _ <;> simp [badNumOptB, badMoneyOpt, notNumOrNeg]

lemma badEntryB_true_iff (e : String × JsVal) : badEntryB e = true ↔ badPackEntry e := by
  rcases e with ⟨k, v⟩
  rcases v with q | s | b | _ <;>
    simp [badEntryB, badPackEntry, notNumOrNeg, not_or]

/-- Claim C5: `validateConfigData` fails exactly when basePrice is present
and not numeric or negative, or embroidery is present and not numeric or
negative, or some packaging entry has a key outside {basic, branded, box}
or a negative or non-numeric value; and on failure the stored config (the
whole document) is not modified. -/
theorem configValidation_exact (doc : Document) (inp : ConfigInput) :
    (validateConfigData inp ≠ none ↔
        badMoneyOpt inp.basePrice ∨ badMoneyOpt inp.embroidery ∨
          ∃ l, inp.packaging = some l ∧ ∃ e ∈ l, badPackEntry e) ∧
      (∀ e, validateConfigData inp = some e → runConfigUpdate doc inp = (doc, some e)) := by
  constructor
  · have hpack : (match inp.packaging with
        | some l => l.any badEntryB
        | none => false) = true ↔
          ∃ l, inp.packaging = some l ∧ ∃ e ∈ l, badPackEntry e := by
      rcases hp : inp.packaging with _ | l
      · simp
      · simp [List.any_eq_true, badEntryB_true_iff]
    have hlhs : validateConfigData inp ≠ none ↔
        (badNumOptB inp.basePrice = true ∨
          (match inp.packaging with
            | some l => l.any badEntryB
            | none => false) = true ∨
          badNumOptB inp.embroidery = true) := by
      unfold validateConfigData
      rcases h1 : badNumOptB inp.basePrice <;>
        rcases h2 : (match inp.packaging with
          | some l => l.any badEntryB
          | none => false) <;>
          rcases h3 : badNumOptB inp.embroidery <;> simp [h1, h2, h3]
    rw [hlhs, badNumOptB_true_iff, badNumOptB_true_iff, hpack]
    constructor
    · rintro (h | h | h)
      · exact Or.inl h
      · exact Or.inr (Or.inr h)
      · exact Or.inr (Or.inl h)
    · rintro (h | h | h)
      · exact Or.inl h
      · exact Or.inr (Or.inr h)
      · exact Or.inr (Or.inl h)
  · intro e he
    simp [runConfigUpdate, he]

/-- Witness for C5: a negative base price is rejected and the document is
unchanged. -/
theorem configValidation_exact_witness :
    runConfigUpdate sampleDoc ⟨some (JsVal.num (-1)), none, none⟩
      = (sampleDoc, some "Base price must be a positive number") :=
  (configValidation_exact sampleDoc ⟨some (JsVal.num (-1)), none, none⟩).2
    "Base price must be a positive number" (by decide)

/-- The `packaging` value found in a persisted config: JSON `null` or an
object. -/
inductive PackVal where
  | jnull
  | jobj (m : String → Option ℚ)

/-- A persisted `config` object, with each key possibly absent. -/
structure RawConfigFile where
  basePrice : Option ℚ
  packaging : Option PackVal
  embroidery : Option ℚ

/-- The persisted top-level JSON object, with each key possibly absent. -/
structure RawDoc where
  orders : Option (List Order)
  config : Option RawConfigFile
  settings : Option (List (String × JsVal))

/-- The state of the database file as `initializeDbFile` (src/server.js
lines 49-75) distinguishes it: missing, unreadable (read throws), empty
after trimming, unparsable JSON, or parsed as an array / `null` / a
primitive / an object. -/
inductive FileState where
  | missing
  | unreadable
  | empty
  | badJson
  | jsonArray
  | jsonNull
  | jsonPrim
  | jsonObj (d : RawDoc)

/-- The default document `defaultData` (src/server.js lines 34-46) as persisted file content. -/
def defaultRawDoc : RawDoc :=
  { orders := some []
    config := some { basePrice := some 45, packaging := some (.jobj defaultPack),
                     embroidery := some 20 }
    settings := some [] }

/-- The `needsInit` flag computed by `initializeDbFile`: everything but a
JSON object triggers re-initialization. -/
def needsInit : FileState → Bool
  | .jsonObj _ => false
  | _ => true

/-- The function `initializeDbFile` (src/server.js lines 49-75): overwrite the file
with `defaultData` whenever it does not hold a JSON object. -/
def initDbFile (fs : FileState) : FileState :=
  if needsInit fs then .jsonObj defaultRawDoc else fs

/-- The function `initDB` (src/server.js lines 78-99): read the (already initialized)
file and patch the structure: `orders || []`,
`{ ...defaultData.config, ...(config || {}) }`, `settings || {}`, and
replace a falsy `config.packaging` by the default packaging object. -/
def initDB (raw : RawDoc) : Document :=
  let rc := raw.config.getD { basePrice := none, packaging := none, embroidery := none }
  let mergedPack : PackVal := rc.packaging.getD (.jobj defaultPack)
  { orders := raw.orders.getD []
    config :=
      { basePrice := some (rc.basePrice.getD 45)
        packaging :=
          match mergedPack with
          | .jnull => defaultPack
          | .jobj m => m
        embroidery := some (rc.embroidery.getD 20) }
    settings := raw.settings.getD [] }

/-- Claim C8: For every initial file state other than a parsed JSON object
(missing, unreadable, empty, bad JSON, array, null, primitive), the
initialization replaces the file content with the default document, which
loads to basePrice 45, packaging basic 3 / branded 5 / box 7, embroidery
20, no orders and empty settings.  (The model is total, so initialization
completes without raising.) -/
theorem initFile_resets_to_default (fs : FileState) (h : ∀ d, fs ≠ FileState.jsonObj d) :
    initDbFile fs = FileState.jsonObj defaultRawDoc ∧
      (initDB defaultRawDoc).orders = [] ∧
      (initDB defaultRawDoc).settings = [] ∧
      (initDB defaultRawDoc).config.basePrice = some 45 ∧
      (initDB defaultRawDoc).config.embroidery = some 20 ∧
      (initDB defaultRawDoc).config.packaging "basic" = some 3 ∧
      (initDB defaultRawDoc).config.packaging "branded" = some 5 ∧
      (initDB defaultRawDoc).config.packaging "box" = some 7 := by
  refine ⟨?_, by decide, by decide, by decide, by decide, by decide, by decide, by decide⟩
  have hn : needsInit fs = true := by
    cases fs <;> first | rfl | exact absurd rfl (h _)
  simp [initDbFile, hn]

/-- Witness for C8: a missing file is reset to the default document. -/
theorem initFile_resets_to_default_witness :
    initDbFile FileState.missing = FileState.jsonObj defaultRawDoc :=
  (initFile_resets_to_default FileState.missing (by intro d h; cases h)).1

/-- A persisted document whose config carries a packaging object holding
only the `basic` key. -/
def c6Raw : RawDoc :=
  { orders := none
    config := some { basePrice := none,
                     packaging := some (.jobj fun k => if k = "basic" then some 1 else none),
                     embroidery := none }
    settings := none }

/-- Counterexample to claim C6 as stated: initializing from a persisted file
whose `config.packaging` is an object holding only `basic` leaves the
visible config without the `branded` and `box` keys — the top-level config
spread replaces the packaging object wholesale, and the code only patches
a falsy packaging value. -/
theorem packaging_key_missing_after_init :
    (initDB c6Raw).config.packaging "basic" = some 1 ∧
      (initDB c6Raw).config.packaging "branded" = none ∧
      (initDB c6Raw).config.packaging "box" = none := by
  decide

/-- Claim C6, amended: After initialization the packaging object always
exists: if the persisted config is absent, or its packaging key is absent
or null, the visible packaging is exactly the full default mapping; if the
persisted config carries a packaging object, that object is taken as-is
(so all three keys are present only when the persisted object already had
them); and a valid config update never removes a packaging key. -/
theorem packaging_presence (raw : RawDoc) (doc : Document) (inp : ConfigInput) (k : String) :
    ((raw.config = none ∨
        ∃ rc, raw.config = some rc ∧ (rc.packaging = none ∨ rc.packaging = some PackVal.jnull)) →
      ∀ k', (initDB raw).config.packaging k' = defaultPack k') ∧
      (∀ rc m, raw.config = some rc → rc.packaging = some (PackVal.jobj m) →
        ∀ k', (initDB raw).config.packaging k' = m k') ∧
      (validateConfigData inp = none → doc.config.packaging k ≠ none →
        (runConfigUpdate doc inp).1.config.packaging k ≠ none) := by
  refine ⟨?_, ?_, ?_⟩
  · rintro (hc | ⟨rc, hc, hp | hp⟩) k'
    · simp [initDB, hc]
    · simp [initDB, hc, hp]
    · simp [initDB, hc, hp]
  · intro rc m hc hp k'
    simp [initDB, hc, hp]
  · intro hv hk
    rw [runConfigUpdate_packaging doc inp hv k]
    rcases hp : inp.packaging with _ | l
    · exact hk
    · show mergeEntries doc.config.packaging l k ≠ none
      rw [mergeEntries_apply]
      rcases hl : lookupLast l k with _ | v
      · exact hk
      · simp

/-- Witness for C6 (amended): a raw document with no config at all loads
with the default packaging at key `basic`. -/
theorem packaging_presence_witness :
    (initDB { orders := none, config := none, settings := none }).config.packaging "basic"
      = defaultPack "basic" :=
  (packaging_presence { orders := none, config := none, settings := none }
      sampleDoc ⟨none, none, none⟩ "basic").1 (Or.inl rfl) "basic"

/-- Claim C9: `calculatePrice` is total over arbitrary configs and treats a
missing basePrice, a missing requested packaging key, and a missing
embroidery surcharge each as 0 (via `|| 0`). -/
theorem calculatePrice_missing_components (cfg : StoredConfig) (size pk : String)
    (emb : Option JsVal) :
    (cfg.basePrice = none →
        calculatePrice cfg size pk emb =
          calculatePrice { cfg with basePrice := some 0 } size pk emb) ∧
      (cfg.packaging pk = none →
        calculatePrice cfg size pk emb =
          calculatePrice { cfg with packaging := setKey cfg.packaging pk 0 } size pk emb) ∧
      (cfg.embroidery = none →
        calculatePrice cfg size pk emb =
          calculatePrice { cfg with embroidery := some 0 } size pk emb) := by
  refine ⟨?_, ?_, ?_⟩ <;> intro h <;> simp [calculatePrice, orZero, h, setKey]

/-- Witness for C9: a config with nothing set prices like the all-zero
config. -/
theorem calculatePrice_missing_components_witness :
    calculatePrice { basePrice := none, packaging := fun _ => none, embroidery := none }
        "M" "basic" none
      = calculatePrice { basePrice := some 0, packaging := fun _ => none, embroidery := none }
        "M" "basic" none :=
  (calculatePrice_missing_components
    { basePrice := none, packaging := fun _ => none, embroidery := none }
    "M" "basic" none).1 rfl

/-- The sort key of the stats ordering (src/server.js line 360):
`new Date(o.createdAt || o.date)`, i.e. the creation timestamp, falling
back to the creation date when the timestamp is absent. -/
def sortKey (o : Order) : ℤ :=
  match o.createdAt with
  | some t => t
  | none => o.date

/-- Order `a` may come before `b` under the comparator
`(a, b) => new Date(b...) - new Date(a...)` (descending by key).
`Array.prototype.sort` is stable, so the sorted result is the unique
stable descending reordering. -/
def recentLE (a b : Order) : Prop := sortKey b ≤ sortKey a

instance : DecidableRel recentLE := fun a b =>
  inferInstanceAs (Decidable (sortKey b ≤ sortKey a))

instance : IsTotal Order recentLE :=
  ⟨fun a b => (le_total (sortKey b) (sortKey a)).imp id id⟩

instance : IsTrans Order recentLE :=
  ⟨fun _ _ _ hab hbc => le_trans hbc hab⟩

/-- The stats object (src/server.js lines 344-362). -/
structure Stats where
  totalOrders : ℕ
  totalRevenue : ℚ
  sizeM : ℕ
  sizeL : ℕ
  sizeXL : ℕ
  size2XL : ℕ
  packBasic : ℕ
  packBranded : ℕ
  packBox : ℕ
  embroideryCount : ℕ
  recentOrders : List Order

/-- The `GET /api/stats` computation (src/server.js lines 339-369):
counts and revenue by `filter`/`reduce`, and `recentOrders` as the first
five elements of the stable descending sort by `sortKey`. -/
def computeStats (orders : List Order) : Stats :=
  { totalOrders := orders.length
    totalRevenue := orders.foldl (fun sum o => sum + jsOrZeroQ o.price) 0
    sizeM := (orders.filter fun o => o.size == "M").length
    sizeL := (orders.filter fun o => o.size == "L").length
    sizeXL := (orders.filter fun o => o.size == "XL").length
    size2XL := (orders.filter fun o => o.size == "2XL").length
    packBasic := (orders.filter fun o => o.packaging == "basic").length
    packBranded := (orders.filter fun o => o.packaging == "branded").length
    packBox := (orders.filter fun o => o.packaging == "box").length
    embroideryCount := (orders.filter fun o => o.embroidery).length
    recentOrders := (List.insertionSort recentLE orders).take 5 }

lemma jsOrZeroQ_eq (q : ℚ) : jsOrZeroQ q = q := by
  unfold jsOrZeroQ
  split <;> simp_all

lemma foldl_price (l : List Order) (a : ℚ) :
    l.foldl (fun sum o => sum + jsOrZeroQ o.price) a = a + (l.map Order.price).sum := by
  induction l generalizing a with
  | nil => simp
  | cons o tl ih =>
    simp only [List.foldl_cons, List.map_cons, List.sum_cons]
    rw [ih, jsOrZeroQ_eq]
    ring

lemma filter_orderedInsert (t : ℤ) (o : Order) (l : List Order) :
    (List.orderedInsert recentLE o l).filter (fun x => sortKey x == t) =
      if sortKey o = t then o :: l.filter (fun x => sortKey x == t)
      else l.filter (fun x => sortKey x == t) := by
  induction l with
  | nil => by_cases h : sortKey o = t <;> simp [List.orderedInsert, h]
  | cons b tl ih =>
    by_cases hob : recentLE o b
    · simp only [List.orderedInsert, if_pos hob]
      by_cases h : sortKey o = t <;> simp [h]
    · have hlt : sortKey o < sortKey b := lt_of_not_le hob
      simp only [List.orderedInsert, if_neg hob]
      by_cases h : sortKey o = t
      · have hb : ¬(sortKey b = t) := by omega
        simp [List.filter_cons, h, hb, ih]
      · by_cases hb : sortKey b = t <;> simp [List.filter_cons, h, hb, ih]

lemma filter_insertionSort (t : ℤ) (l : List Order) :
    (List.insertionSort recentLE l).filter (fun x => sortKey x == t) =
      l.filter (fun x => sortKey x == t) := by
  induction l with
  | nil => rfl
  | cons o tl ih =>
    simp only [List.insertionSort, filter_orderedInsert]
    by_cases h : sortKey o = t <;> simp [List.filter_cons, h, ih]

lemma filter_take_drop (p : Order → Bool) (l : List Order) (n : ℕ) :
    l.filter p = (l.take n).filter p ++ (l.drop n).filter p := by
  rw [← List.filter_append, List.take_append_drop]

/-- Two distinct orders sharing one creation timestamp. -/
def tieOrder1 : Order :=
  { id := "a", customer := "A", size := "M", packaging := "basic", embroidery := false,
    price := 48, date := 0, createdAt := some 100 }

/-- Second order with the same timestamp, inserted after the first. -/
def tieOrder2 : Order :=
  { id := "b", customer := "B", size := "L", packaging := "box", embroidery := false,
    price := 52, date := 0, createdAt := some 100 }

/-- Counterexample to claim C7 as stated: the sort comparator returns 0 for
equal timestamps and `Array.prototype.sort` is stable, so orders tied on
the creation timestamp keep their original insertion order — they are not
reversed.  For two tied orders the code yields `[first, second]`, while
the claim predicts `[second, first]`. -/
theorem recentOrders_tie_not_reversed :
    (computeStats [tieOrder1, tieOrder2]).recentOrders = [tieOrder1, tieOrder2] ∧
      [tieOrder1, tieOrder2] ≠ ([tieOrder2, tieOrder1] : List Order) := by
  decide

/-- Claim C7, amended: For every order list of N orders the stats hold
totalOrders = N, totalRevenue = the sum of all order prices, per-size,
per-packaging and embroidery counts, and recentOrders of length min(N, 5)
ordered descending by creation timestamp (falling back to the creation
date when the timestamp is absent), with ties broken by original
insertion order preserved (stable sort): for each key value, the tied
recent orders are an initial segment, in original order, of the tied
orders of the input list. -/
theorem stats_spec (orders : List Order) :
    (computeStats orders).totalOrders = orders.length ∧
      (computeStats orders).totalRevenue = (orders.map Order.price).sum ∧
      (computeStats orders).sizeM = orders.countP (fun o => o.size == "M") ∧
      (computeStats orders).sizeL = orders.countP (fun o => o.size == "L") ∧
      (computeStats orders).sizeXL = orders.countP (fun o => o.size == "XL") ∧
      (computeStats orders).size2XL = orders.countP (fun o => o.size == "2XL") ∧
      (computeStats orders).packBasic = orders.countP (fun o => o.packaging == "basic") ∧
      (computeStats orders).packBranded = orders.countP (fun o => o.packaging == "branded") ∧
      (computeStats orders).packBox = orders.countP (fun o => o.packaging == "box") ∧
      (computeStats orders).embroideryCount = orders.countP (fun o => o.embroidery) ∧
      (computeStats orders).recentOrders.length = min orders.length 5 ∧
      (computeStats orders).recentOrders.Pairwise (fun a b => sortKey b ≤ sortKey a) ∧
      (∀ t : ℤ, ∃ rest,
        orders.filter (fun o => sortKey o == t) =
          (computeStats orders).recentOrders.filter (fun o => sortKey o == t) ++ rest) := by
  refine ⟨rfl, ?_, ?_, ?_, ?_, ?_, ?_, ?_, ?_, ?_, ?_, ?_, ?_⟩
  · show orders.foldl (fun sum o => sum + jsOrZeroQ o.price) 0 = _
    rw [foldl_price, zero_add]
  · exact (List.countP_eq_length_filter _ _).symm
  · exact (List.countP_eq_length_filter _ _).symm
  · exact (List.countP_eq_length_filter _ _).symm
  · exact (List.countP_eq_length_filter _ _).symm
  · exact (List.countP_eq_length_filter _ _).symm
  · exact (List.countP_eq_length_filter _ _).symm
  · exact (List.countP_eq_length_filter _ _).symm
  · exact (List.countP_eq_length_filter _ _).symm
  · show ((List.insertionSort recentLE orders).take 5).length = _
    rw [List.length_take, (List.perm_insertionSort recentLE orders).length_eq, Nat.min_comm]
  · exact List.Pairwise.sublist (List.take_sublist 5 _)
      (List.sorted_insertionSort recentLE orders)
  · intro t
    refine ⟨((List.insertionSort recentLE orders).drop 5).filter (fun o => sortKey o == t), ?_⟩
    calc orders.filter (fun o => sortKey o == t)
        = (List.insertionSort recentLE orders).filter (fun o => sortKey o == t) :=
          (filter_insertionSort t orders).symm
      _ = ((List.insertionSort recentLE orders).take 5).filter (fun o => sortKey o == t) ++
            ((List.insertionSort recentLE orders).drop 5).filter (fun o => sortKey o == t) :=
          filter_take_drop _ _ 5

end ScrapSys
